import Mathlib

/-!
Verification development for the web3fy-go resilient extraction pipeline.

The TypeScript sources are shallowly embedded as Lean functions:

* pure computations (URL validation, ASIN derivation, slicing, the static
  fallback set) become Lean functions over `String` / `List`;
* page navigation, in-page DOM extraction and the HTTP fetch are environment
  boundaries: their outcomes are explicit parameters (`Except` values, or a
  function from the scroll round to the records the in-page extractor
  returned on that round);
* the scroll/extract and retry loops, which in the source count an attempt
  counter up to a fixed bound, are made structurally recursive on the number
  of remaining iterations (`fuel`), with the attempt counter kept alongside;
  top-level wrappers instantiate `fuel` with the source's bound so that the
  two counters stay in sync exactly as in the source loop;
* the PostgreSQL products table is a list of rows, and saveProducts runs
  against a small transaction machine (committed table plus an optional
  in-transaction table) mirroring BEGIN / per-row UPSERT / COMMIT / ROLLBACK.

JS-specific semantics that matter to the claims are modelled explicitly:
`Array.prototype.slice(0, end)` with a possibly negative `end`, truthiness of
empty strings, `parseInt(x) || 0` on decimal digit strings, and PostgreSQL's
treatment of NULL in a UNIQUE column (NULLs never conflict).
-/

namespace Web3fyGo

/-- Rank of a record: the source's `rank: string | number`. -/
inductive RankVal
  | num (n : Int)
  | str (s : String)
deriving DecidableEq

/-- An extracted record, the source's `Product` interface: list extraction
fills the base fields, detail extraction additionally fills availability,
review count, brand and features. -/
structure Product where
  rank : RankVal
  title : String
  price : String
  rating : String
  image : Option String
  link : Option String
  source : String
  scrapedAt : Nat
  asin : Option String := none
  availability : Option String := none
  reviewCount : Option String := none
  brand : Option String := none
  features : List String := []
deriving DecidableEq

/-- Errors thrown inside the extraction pipeline. -/
inductive ScrapeErr
  | launchFailed
  | navFailed
  | noProducts
  | invalidUrl
  | titleMissing
deriving DecidableEq

/-- Infix scan over character lists: does `pat` occur contiguously? -/
def hasInfix (pat : List Char) : List Char → Bool
  | [] => pat.isEmpty
  | c :: cs => pat.isPrefixOf (c :: cs) || hasInfix pat cs

/-- Substring test, the source's `String.prototype.includes`. -/
def strContains (s pat : String) : Bool :=
  hasInfix pat.toList s.toList

/-- Whitespace trim at both ends of a character list. -/
def trimList (l : List Char) : List Char :=
  ((l.dropWhile Char.isWhitespace).reverse.dropWhile Char.isWhitespace).reverse

/-- JS `String.prototype.trim`. -/
def jsTrim (s : String) : String :=
  String.mk (trimList s.toList)

/-- Characters after the first occurrence of the separator, `none` when the
separator does not occur. -/
def afterFirstSep (sep : List Char) : List Char → Option (List Char)
  | [] => none
  | c :: cs =>
    if sep.isPrefixOf (c :: cs) then some (List.drop sep.length (c :: cs))
    else afterFirstSep sep cs

/-- Prefix up to (excluding) the first occurrence of the separator, the
whole list when the separator does not occur. -/
def upToSep (sep : List Char) : List Char → List Char
  | [] => []
  | c :: cs =>
    if sep.isPrefixOf (c :: cs) then []
    else c :: upToSep sep cs

/-- Element 1 of JS `s.split(sep)`: the segment between the first and the
second occurrence of the separator (undefined, modelled as the empty
string, when the separator does not occur). -/
def splitIdx1 (s sep : String) : String :=
  match afterFirstSep sep.toList s.toList with
  | some rest => String.mk (upToSep sep.toList rest)
  | none => ""

/-- JS `Array.prototype.slice(0, stop)`: a negative `stop` counts from the
end of the array (clamped at 0), a non-negative `stop` is clamped at the
length. -/
def jsSliceTo {α : Type} (l : List α) (stop : Int) : List α :=
  if stop < 0 then l.take ((l.length : Int) + stop).toNat
  else l.take stop.toNat

/-- Numeric value of a run of decimal digits. -/
def digitsVal (ds : List Char) : Nat :=
  ds.foldl (fun a c => a * 10 + (c.toNat - ('0').toNat)) 0

/-- JS `parseInt(s) || 0` on the decimal forms that reach it in this code
base (an optional sign followed by digits, possibly with trailing garbage);
a string with no leading digits parses to NaN, which `|| 0` turns into 0. -/
def jsParseIntOr0 (s : String) : Int :=
  let cs := s.toList.dropWhile (fun c => c.isWhitespace)
  match cs with
  | '-' :: rest =>
    let ds := rest.takeWhile (fun c => c.isDigit)
    if ds.isEmpty then 0 else -(digitsVal ds : Int)
  | '+' :: rest =>
    let ds := rest.takeWhile (fun c => c.isDigit)
    if ds.isEmpty then 0 else (digitsVal ds : Int)
  | _ =>
    let ds := cs.takeWhile (fun c => c.isDigit)
    if ds.isEmpty then 0 else (digitsVal ds : Int)

/-- Character class `[A-Z0-9]` of the ASIN pattern. -/
def isAsinChar (c : Char) : Bool :=
  c.isUpper || c.isDigit

/-- First match of the regular expression `\/dp\/([A-Z0-9]\x7b10\x7d)`:
scan for the first position where the literal `/dp/` is followed by ten
characters from `[A-Z0-9]`, and return those ten characters. -/
def findDpAsin : List Char → Option String
  | [] => none
  | c :: cs =>
    let l := c :: cs
    let cand := (l.drop 4).take 10
    if l.take 4 = ['/', 'd', 'p', '/'] ∧ cand.length = 10 ∧ cand.all isAsinChar = true
    then some (String.mk cand)
    else findDpAsin cs

/-- JS `str.charAt(0).toUpperCase() + str.slice(1)`. -/
def capitalize (s : String) : String :=
  match s.toList with
  | [] => ""
  | c :: cs => String.mk (c.toUpper :: cs)

/-! ## RetryOrchestrator: `AmazonScraper.retryOperation`

The source loops `for (attempt = 1; attempt <= maxRetries; attempt++)`,
returning on the first success, sleeping `retryDelay * 2 ^ (attempt - 1)`
milliseconds when `attempt < maxRetries`, and rethrowing the last error
after the final attempt.  `retryGo op baseDelay fuel attempt` is that loop
with `fuel = maxRetries - attempt` remaining retries; it returns the result
together with the number of invocations of `op` and the list of delays
slept between attempts. -/

/-- Retry loop body; `fuel` is the number of retries still allowed after the
current attempt (`maxRetries - attempt`), so `fuel = 0` means the current
attempt is the last and its error is rethrown. -/
def retryGo {E A : Type} (op : Nat → Except E A) (baseDelay : Nat) :
    Nat → Nat → Except E A × Nat × List Nat
  | 0, attempt =>
    match op attempt with
    | .ok v => (.ok v, 1, [])
    | .error e => (.error e, 1, [])
  | fuel + 1, attempt =>
    match op attempt with
    | .ok v => (.ok v, 1, [])
    | .error _ =>
      let r := retryGo op baseDelay fuel (attempt + 1)
      (r.1, r.2.1 + 1, baseDelay * 2 ^ (attempt - 1) :: r.2.2)

/-- The source's `retryOperation` with its configured policy
`maxRetries = 3`, `retryDelay = 2000`: attempts are numbered 1..3, so the
first attempt has 2 retries of fuel left. -/
def retryOperation {E A : Type} (op : Nat → Except E A) : Except E A × Nat × List Nat :=
  retryGo op 2000 2 1

/-! ## Static tier-4 fallback: `AmazonScraper.getFallbackProducts` -/

/-- The hard-coded five-record sample set; `scrapedAt` is the wall-clock
time at which the fallback is produced. -/
def fallbackProducts (now : Nat) : List Product :=
  [ { rank := .num 1,
      title := "Echo Dot (5th Gen) | Smart speaker with bigger vibrant sound and Alexa",
      price := "$49.99", rating := "4.7 out of 5 stars",
      image := none, link := none,
      source := "Fallback Data - Amazon Best Sellers", scrapedAt := now },
    { rank := .num 2,
      title := "Fire TV Stick 4K Max streaming device",
      price := "$54.99", rating := "4.6 out of 5 stars",
      image := none, link := none,
      source := "Fallback Data - Amazon Best Sellers", scrapedAt := now },
    { rank := .num 3,
      title := "Apple AirPods (3rd Generation) Wireless Earbuds",
      price := "$169.00", rating := "4.4 out of 5 stars",
      image := none, link := none,
      source := "Fallback Data - Amazon Best Sellers", scrapedAt := now },
    { rank := .num 4,
      title := "Kindle Paperwhite – Now with 6.8\" display and adjustable warm light",
      price := "$139.99", rating := "4.6 out of 5 stars",
      image := none, link := none,
      source := "Fallback Data - Amazon Best Sellers", scrapedAt := now },
    { rank := .num 5,
      title := "Apple Watch Series 9 [GPS 41mm] Smartwatch",
      price := "$329.00", rating := "4.5 out of 5 stars",
      image := none, link := none,
      source := "Fallback Data - Amazon Best Sellers", scrapedAt := now } ]

/-- The source's `getFallbackProducts(limit)`:
`fallbackProducts.slice(0, limit)`. -/
def getFallbackProducts (limit : Int) (now : Nat) : List Product :=
  jsSliceTo (fallbackProducts now) limit

/-! ## Browser tier: `AmazonScraper.scrapeTrendingProducts`

The scroll loop runs `while (allProducts.length < targetProducts &&
scrollAttempts < maxScrollAttempts)` with `maxScrollAttempts = 6` and
`targetProducts = Math.min(limit, 50)`; every round appends the full
in-page extraction result (`views attempts`) to the accumulator and then
increments the counter.  `fuel` is the number of rounds still allowed
(`maxScrollAttempts - attempts`); the top-level wrapper starts it at 6. -/

/-- Scroll/extract loop of `scrapeTrendingProducts`. -/
def trendingLoop (views : Nat → List Product) (target : Int) :
    Nat → Nat → List Product → List Product
  | 0, _, all => all
  | fuel + 1, attempts, all =>
    if (all.length : Int) < target then
      trendingLoop views target fuel (attempts + 1) (all ++ views attempts)
    else all

/-- The source's `scrapeTrendingProducts(limit, type, category)` after a
successful navigation: run the scroll loop, relabel every record's source
with the capitalized category, and return `allProducts.slice(0, limit)`.
No emptiness check is performed — an empty accumulation is returned as an
empty list, not an error. -/
def scrapeTrendingProducts (views : Nat → List Product) (limit : Int)
    (category : String) : List Product :=
  let target := min limit 50
  let all := trendingLoop views target 6 0 []
  let relabeled := all.map (fun p =>
    { p with source := "Amazon " ++ capitalize category ++ " Best Sellers" })
  jsSliceTo relabeled limit

/-- The browser tier as observed by `getTrendingProducts`: page creation,
navigation and the selector wait may throw (`nav`); once the page is ready
the scroll loop itself cannot throw. -/
def scrapeTrendingProductsRun (nav : Except ScrapeErr Unit)
    (views : Nat → List Product) (limit : Int) (category : String) :
    Except ScrapeErr (List Product) :=
  match nav with
  | .error e => .error e
  | .ok _ => .ok (scrapeTrendingProducts views limit category)

/-! ## HTTP tier: `AmazonScraper.scrapeWithHttpOnly`

The raw markup is scanned with an ordered list of title patterns; the
matches of each pattern are the environment input `pats` (one list of raw
match strings per pattern).  Titles are trimmed, validated, deduplicated by
exact string equality and numbered from rank 1 while `rank <= limit`; the
first pattern that yields any product wins, and an empty harvest throws. -/

/-- Title consists only of characters from the class `[0-9\s\-#\.]`. -/
def junkOnly (t : String) : Bool :=
  t.toList.all (fun c => c.isDigit || c.isWhitespace || c = '-' || c = '#' || c = '.')

/-- Validation applied to each trimmed HTTP-extracted title. -/
def httpValidTitle (t : String) : Bool :=
  decide (t ≠ "") && decide (10 < t.length) && decide (t.length < 200) &&
    !(strContains t "Amazon") && !(strContains t "Best Sellers") && !(junkOnly t)

/-- Record built for an accepted HTTP-extracted title. -/
def mkHttpProduct (rank : Int) (t : String) (now : Nat) : Product :=
  { rank := .num rank, title := t, price := "Price not available", rating := "N/A",
    image := none, link := none, source := "Amazon Best Sellers (HTTP)",
    scrapedAt := now }

/-- Scan the matches of one pattern, accumulating accepted products while
`rank ≤ limit`. -/
def httpCollect (limit : Int) (now : Nat) :
    List String → List Product → Int → List Product
  | [], acc, _ => acc
  | m :: ms, acc, rank =>
    if rank ≤ limit then
      let t := jsTrim m
      if httpValidTitle t && !(acc.any (fun p => p.title == t)) then
        httpCollect limit now ms (acc ++ [mkHttpProduct rank t now]) (rank + 1)
      else
        httpCollect limit now ms acc rank
    else acc

/-- Try the patterns in order, stopping at the first that yields any
product. -/
def httpScanPatterns (limit : Int) (now : Nat) : List (List String) → List Product
  | [] => []
  | ms :: rest =>
    let ps := httpCollect limit now ms [] 1
    if ps = [] then httpScanPatterns limit now rest else ps

/-- The source's `scrapeWithHttpOnly(limit)`: the fetch itself may fail
(`fetch`); with markup in hand, scan the patterns and throw when nothing
was found, so a successful return is never empty. -/
def scrapeWithHttpOnly (fetch : Except ScrapeErr Unit)
    (pats : List (List String)) (limit : Int) (now : Nat) :
    Except ScrapeErr (List Product) :=
  match fetch with
  | .error e => .error e
  | .ok _ =>
    let ps := httpScanPatterns limit now pats
    if ps = [] then .error .noProducts else .ok ps

/-! ## Fallback chain: `AmazonScraper.getTrendingProducts` -/

/-- The source's `getTrendingProducts(limit, type, category)`: with
`SKIP_BROWSER` set, try HTTP-only and fall back to the static sample set;
otherwise try browser extraction, then HTTP-only, then the static set.
Each tier's error is caught; only tier results flow onward. -/
def getTrendingProducts (limit : Int) (category : String) (skipBrowser : Bool)
    (nav : Except ScrapeErr Unit) (views : Nat → List Product)
    (fetch : Except ScrapeErr Unit) (pats : List (List String)) (now : Nat) :
    Except ScrapeErr (List Product) :=
  if skipBrowser then
    match scrapeWithHttpOnly fetch pats limit now with
    | .ok ps => .ok ps
    | .error _ => .ok (getFallbackProducts limit now)
  else
    match scrapeTrendingProductsRun nav views limit category with
    | .ok ps => .ok ps
    | .error _ =>
      match scrapeWithHttpOnly fetch pats limit now with
      | .ok ps => .ok ps
      | .error _ => .ok (getFallbackProducts limit now)

/-! ## ScrollPaginator: `EnhancedAmazonScraper.scrapeProductsWithScrolling`

Same loop bound (`maxScrollAttempts = 6`, `targetProducts =
Math.min(limit, 50)`), but each round keeps only the records whose title is
not already in the running set, breaks as soon as the target is reached or
a round contributed nothing new, throws when the accumulator ends empty,
and returns `allProducts.slice(0, targetProducts)`.  The loop result also
carries the number of extraction rounds that were performed. -/

/-- Scroll/extract loop of `scrapeProductsWithScrolling`; `fuel` is the
number of rounds still allowed (`maxScrollAttempts - attempts`). -/
def enhancedLoop (views : Nat → List Product) (target : Int) :
    Nat → Nat → List Product → List Product × Nat
  | 0, _, all => (all, 0)
  | fuel + 1, attempts, all =>
    if (all.length : Int) < target then
      let nw := (views attempts).filter
        (fun p => !(all.any (fun e => e.title == p.title)))
      let all' := all ++ nw
      if target ≤ (all'.length : Int) ∨ nw = [] then (all', 1)
      else
        let r := enhancedLoop views target fuel (attempts + 1) all'
        (r.1, r.2 + 1)
    else (all, 0)

/-- The source's `scrapeProductsWithScrolling(limit)` after a successful
navigation. -/
def scrapeProductsWithScrolling (views : Nat → List Product) (limit : Int) :
    Except ScrapeErr (List Product) :=
  let target := min limit 50
  let r := enhancedLoop views target 6 0 []
  if r.1 = [] then .error .noProducts
  else .ok (jsSliceTo r.1 target)

/-! ## In-page extraction (ExtractionStrategy)

One candidate DOM element is seen by the extraction callbacks only through
its per-field query results: for each field cascade, the text of the first
selector that matched with non-empty trimmed text (or the relevant
attribute value).  `Elem` is that boundary. -/

/-- Per-field query results for one candidate element. -/
structure Elem where
  titleMatch : Option String
  priceMatch : Option String
  ratingMatch : Option String
  img : Option String
  linkHref : Option String
  dataAsin : Option String
  rankBadge : Option String
deriving DecidableEq

/-- ASIN parsed from the element's detail URL (empty when the link is
absent or the pattern does not match), as in the in-page callback of
`scrapeTrendingProducts`. -/
def elemUrlAsin (e : Elem) : String :=
  match e.linkHref with
  | some l => (findDpAsin l.toList).getD ""
  | none => ""

/-- ASIN derivation of the `scrapeTrendingProducts` callback: the
`data-asin` attribute when truthy (non-empty), else the URL pattern. -/
def elemAsinList (e : Elem) : String :=
  match e.dataAsin with
  | some a => if a = "" then elemUrlAsin e else a
  | none => elemUrlAsin e

/-- In-page extraction of `scrapeTrendingProducts` over the candidate
elements in DOM order (`i` is the element index): skip candidates whose
title is missing or shorter than 5 characters, skip candidates with no
derivable ASIN, default the remaining fields. -/
def extractProductsListGo (now : Nat) : List Elem → Nat → List Product
  | [], _ => []
  | e :: es, i =>
    let title := e.titleMatch.getD ""
    if title = "" ∨ title.length < 5 then extractProductsListGo now es (i + 1)
    else
      let asin := elemAsinList e
      if asin = "" then extractProductsListGo now es (i + 1)
      else
        { rank := .num ((i : Int) + 1),
          title := title,
          price := e.priceMatch.getD "Price not available",
          rating := e.ratingMatch.getD "No rating",
          image := e.img,
          link := e.linkHref,
          source := "Amazon Best Sellers",
          scrapedAt := now,
          asin := some asin } :: extractProductsListGo now es (i + 1)

/-- In-page extraction callback of `scrapeTrendingProducts`. -/
def extractProductsList (elems : List Elem) (now : Nat) : List Product :=
  extractProductsListGo now elems 0

/-- Remove the first occurrence of the hash character, JS
`s.replace(Char35, emptyString)` on the rank badge. -/
def removeFirstHash : List Char → List Char
  | [] => []
  | c :: cs => if c = '#' then cs else c :: removeFirstHash cs

/-- In-page extraction of `scrapeProductsWithScrolling` (the enhanced
scraper): same title validation, but the ASIN is only read from the
`data-asin` attribute, defaulted to the empty string, embedded into the
provenance label, and never used to drop the candidate. -/
def extractProductsEnhancedGo (now : Nat) : List Elem → Nat → List Product
  | [], _ => []
  | e :: es, i =>
    let title := e.titleMatch.getD ""
    if title = "" ∨ title.length < 5 then extractProductsEnhancedGo now es (i + 1)
    else
      let rating := match e.ratingMatch with
        | some rt => if strContains rt "out of" then jsTrim rt else "N/A"
        | none => "N/A"
      let link := e.linkHref.map (fun h =>
        if ("http".toList.isPrefixOf h.toList) then h else "https://www.amazon.com" ++ h)
      let asin := e.dataAsin.getD ""
      let rank : RankVal := match e.rankBadge with
        | some b => if jsTrim b = "" then .num ((i : Int) + 1)
                    else .str (String.mk (removeFirstHash (jsTrim b).toList))
        | none => .num ((i : Int) + 1)
      { rank := rank,
        title := title,
        price := e.priceMatch.getD "Price not available",
        rating := rating,
        image := e.img,
        link := link,
        source := "Amazon Best Sellers (Electronics) - ASIN: " ++ asin,
        scrapedAt := now } :: extractProductsEnhancedGo now es (i + 1)

/-- In-page extraction callback of `scrapeProductsWithScrolling`. -/
def extractProductsEnhanced (elems : List Elem) (now : Nat) : List Product :=
  extractProductsEnhancedGo now elems 0

/-! ## URL validation and detail extraction -/

/-- A parsed URL as the WHATWG parser delivers it: the original string plus
hostname and pathname. -/
structure Url where
  href : String
  hostname : String
  pathname : String
deriving DecidableEq

/-- The domain allowlist of `isValidAmazonUrl`. -/
def validDomains : List String :=
  ["amazon.com", "amazon.co.uk", "amazon.ca", "amazon.de", "amazon.fr",
   "amazon.it", "amazon.es", "amazon.co.jp", "amazon.in", "amazon.com.au",
   "amazon.com.br", "amazon.com.mx"]

/-- The source's `isValidAmazonUrl`: hostname equals a listed domain or its
`www.` variant, and the pathname contains a product path segment. -/
def isValidAmazonUrl (u : Url) : Bool :=
  let isAmazonDomain := validDomains.any (fun d =>
    u.hostname == d || u.hostname == "www." ++ d)
  let hasProductPath := strContains u.pathname "/dp/" ||
    strContains u.pathname "/gp/product/" || strContains u.pathname "/product/"
  isAmazonDomain && hasProductPath

/-- Output of the detail page's in-page evaluation (every field defaulted
to the empty string when no selector matched). -/
structure DetailData where
  title : String
  price : String
  rating : String
  image : String
  asin : String
  availability : String
  reviewCount : String
  brand : String
  features : List String
deriving DecidableEq

/-- Record constructed by `scrapeProductDetails` from the evaluated page
data: empty strings become the unavailable sentinels, the optional detail
fields are present only when non-empty, and a missing ASIN is tolerated. -/
def mkDetailProduct (u : Url) (d : DetailData) (now : Nat) : Product :=
  { rank := .str "1",
    title := d.title,
    price := if d.price = "" then "Price not available" else d.price,
    rating := if d.rating = "" then "Rating not available" else d.rating,
    image := some (if d.image = "" then
      "https://via.placeholder.com/200x200?text=No+Image" else d.image),
    link := some u.href,
    source := if d.asin = "" then "Amazon Product Detail"
      else "Amazon Product Detail - ASIN: " ++ d.asin,
    scrapedAt := now,
    asin := if d.asin = "" then none else some d.asin,
    availability := if d.availability = "" then none else some d.availability,
    reviewCount := if d.reviewCount = "" then none else some d.reviewCount,
    brand := if d.brand = "" then none else some d.brand,
    features := if 0 < d.features.length then d.features else [] }

/-- The source's `scrapeProductDetails(productUrl)`: validate the URL
before creating any page (the second component counts the pages created);
then navigate and evaluate (`pageOutcome`), and reject a missing or short
title. -/
def scrapeProductDetails (u : Url) (pageOutcome : Except ScrapeErr DetailData)
    (now : Nat) : Except ScrapeErr Product × Nat :=
  if isValidAmazonUrl u then
    match pageOutcome with
    | .error e => (.error e, 1)
    | .ok d =>
      if d.title = "" ∨ d.title.length < 5 then (.error .titleMissing, 1)
      else (.ok (mkDetailProduct u d now), 1)
  else (.error .invalidUrl, 0)

/-! ## CacheStore: `DatabaseService` over the `products` table

A table row carries the columns of the `products` schema that the service
reads and writes (`id` and `created_at` are never consulted).  Timestamps
are integers; `scraped_at` arrives from the record, `updated_at` is set by
the upsert. -/

/-- Insert payload produced by `convertToDbProduct` (the row minus
`updated_at`). -/
structure NewRow where
  asin : Option String
  rank : Int
  title : String
  price : String
  rating : String
  image_url : Option String
  product_url : Option String
  source : String
  category : String
  scraped_at : Nat
deriving DecidableEq

/-- Stored row of the `products` table. -/
structure DbRow where
  asin : Option String
  rank : Int
  title : String
  price : String
  rating : String
  image_url : Option String
  product_url : Option String
  source : String
  category : String
  scraped_at : Nat
  updated_at : Nat
deriving DecidableEq

/-- ASIN derivation of `convertToDbProduct`: the text after the first
`ASIN:` marker in the source label, trimmed; else the URL pattern when the
link contains `/dp/`; the empty result becomes NULL
(`asin: asin or undefined` in the source). -/
def asinOf (p : Product) : Option String :=
  if strContains p.source "ASIN:" then
    let a := jsTrim (splitIdx1 p.source "ASIN:")
    if a = "" then none else some a
  else
    match p.link with
    | some l =>
      if strContains l "/dp/" then
        match findDpAsin l.toList with
        | some a => some a
        | none => none
      else none
    | none => none

/-- The source's `convertToDbProduct(product, category)`: a string rank
goes through `parseInt(rank) or 0`. -/
def convertToDbProduct (p : Product) (category : String) : NewRow :=
  { asin := asinOf p,
    rank := match p.rank with
      | .str s => jsParseIntOr0 s
      | .num n => n,
    title := p.title,
    price := p.price,
    rating := p.rating,
    image_url := p.image,
    product_url := p.link,
    source := p.source,
    category := category,
    scraped_at := p.scrapedAt }

/-- Column constraints of the `products` schema that can make a row's
INSERT fail inside the batch: `asin VARCHAR(20)`, `price VARCHAR(50)`,
`rating VARCHAR(50)`, `source VARCHAR(100)`, `category VARCHAR(50)`. -/
def rowOk (r : NewRow) : Bool :=
  (match r.asin with
    | some a => decide (a.length ≤ 20)
    | none => true) &&
  decide (r.price.length ≤ 50) && decide (r.rating.length ≤ 50) &&
  decide (r.source.length ≤ 100) && decide (r.category.length ≤ 50)

/-- Freshly inserted row: all columns from the payload, `updated_at` from
the insert's CURRENT_TIMESTAMP default. -/
def insertRow (nr : NewRow) (now : Nat) : DbRow :=
  { asin := nr.asin, rank := nr.rank, title := nr.title, price := nr.price,
    rating := nr.rating, image_url := nr.image_url,
    product_url := nr.product_url, source := nr.source,
    category := nr.category, scraped_at := nr.scraped_at, updated_at := now }

/-- Conflict update of the UPSERT: every mutable column is overwritten from
the payload and `updated_at` is bumped; the conflict column `asin` keeps
its (equal) value. -/
def overwriteRow (r : DbRow) (nr : NewRow) (now : Nat) : DbRow :=
  { asin := r.asin, rank := nr.rank, title := nr.title, price := nr.price,
    rating := nr.rating, image_url := nr.image_url,
    product_url := nr.product_url, source := nr.source,
    category := nr.category, scraped_at := nr.scraped_at, updated_at := now }

/-- One `INSERT ... ON CONFLICT (asin) DO UPDATE` against a table:
PostgreSQL NULLs never conflict under a UNIQUE constraint, so a NULL-asin
payload always inserts a new row; a non-NULL asin updates the existing row
with that asin when present, else inserts. -/
def upsertRow (table : List DbRow) (nr : NewRow) (now : Nat) : List DbRow :=
  match nr.asin with
  | some a =>
    if table.any (fun r => decide (r.asin = some a)) then
      table.map (fun r => if r.asin = some a then overwriteRow r nr now else r)
    else table ++ [insertRow nr now]
  | none => table ++ [insertRow nr now]

/-- Connection-level state: the committed table, plus the working table of
an open transaction when one is in progress. -/
structure DbState where
  committed : List DbRow
  txn : Option (List DbRow)
deriving DecidableEq

/-- SQL BEGIN: open a transaction over the current committed table. -/
def beginTxn (s : DbState) : DbState :=
  { s with txn := some s.committed }

/-- Run one UPSERT inside the open transaction (autocommit otherwise). -/
def txnUpsert (s : DbState) (nr : NewRow) (now : Nat) : DbState :=
  match s.txn with
  | some t => { s with txn := some (upsertRow t nr now) }
  | none => { committed := upsertRow s.committed nr now, txn := none }

/-- SQL COMMIT: publish the working table. -/
def commitTxn (s : DbState) : DbState :=
  match s.txn with
  | some t => { committed := t, txn := none }
  | none => s

/-- SQL ROLLBACK: discard the working table. -/
def rollbackTxn (s : DbState) : DbState :=
  { s with txn := none }

/-- Per-row loop of `saveProducts`: upsert each payload, counting saves; on
the first failing row, roll back and rethrow; after the loop, commit. -/
def saveLoop (now : Nat) : List NewRow → DbState → Nat → Except String Nat × DbState
  | [], s, saved => (.ok saved, commitTxn s)
  | r :: rs, s, saved =>
    if rowOk r then saveLoop now rs (txnUpsert s r now) (saved + 1)
    else (.error "insert failed", rollbackTxn s)

/-- The source's `saveProducts(products, category)`: BEGIN, loop the
UPSERTs, COMMIT, with ROLLBACK-and-rethrow on any error. -/
def saveProducts (ps : List Product) (category : String) (now : Nat)
    (s : DbState) : Except String Nat × DbState :=
  saveLoop now (ps.map (fun p => convertToDbProduct p category)) (beginTxn s) 0

/-- Schema invariant of the `asin VARCHAR(20) UNIQUE` column: at most one
row per non-null asin. -/
def asinUnique (table : List DbRow) : Prop :=
  ∀ a : String, (table.filter (fun r => decide (r.asin = some a))).length ≤ 1

/-! ## Freshness check: `DatabaseService.hasFreshData` -/

/-- Rows of the category whose `scraped_at` lies strictly inside the
`maxAgeHours` window ending at `now` (seconds). -/
def freshRows (table : List DbRow) (category : String) (maxAgeHours : Nat)
    (now : Int) : List DbRow :=
  table.filter (fun r =>
    decide (r.category = category ∧
      now - (maxAgeHours : Int) * 3600 < (r.scraped_at : Int)))

/-- MAX(scraped_at) over a row set, NULL over the empty set. -/
def maxScraped : List DbRow → Option Int
  | [] => none
  | r :: rs => some (rs.foldl (fun m x => max m (x.scraped_at : Int)) (r.scraped_at : Int))

/-- The source's `hasFreshData(category, maxAgeHours)`: COUNT and MAX over
the fresh rows of the category; fresh when the count is positive. -/
def hasFreshData (table : List DbRow) (category : String) (maxAgeHours : Nat)
    (now : Int) : Bool × Nat × Option Int :=
  let rows := freshRows table category maxAgeHours now
  (decide (0 < rows.length), rows.length, maxScraped rows)

/-! ## The products endpoint flow (GET /products)

The route first reads the cache; on a miss or forced refresh it scrapes,
saves and returns the scraped records; any error thrown while scraping OR
saving lands in the same catch, which falls back to the cached rows when
any existed, else to the static sample set. -/

/-- Scrape-then-save flow of the products route, from after the cache read:
`dbProducts` is the cache-read result, `scrape` the outcome of
`getTrendingProducts`, `save` the outcome of `saveProducts` on the scraped
records. -/
def productsEndpoint (limit : Int) (now : Nat) (category : String)
    (dbProducts : List Product) (forceRefresh : Bool)
    (scrape : Except String (List Product)) (save : Except String Nat) :
    List Product × String :=
  if 0 < dbProducts.length ∧ forceRefresh = false then
    (dbProducts, "PostgreSQL Cache (" ++ category ++ ")")
  else
    let onScrapingError : List Product × String :=
      if dbProducts.length = 0 then
        (getFallbackProducts limit now, "Static Fallback Data - All other sources failed")
      else
        (dbProducts, "PostgreSQL Cache (Fallback) - Scraping failed")
    match scrape with
    | .error _ => onScrapingError
    | .ok scraped =>
      if 0 < scraped.length then
        match save with
        | .ok _ => (scraped, "Live Scraping - Just scraped")
        | .error _ => onScrapingError
      else onScrapingError

/-- The claimed refinement of `isValidAmazonUrl`, written from the claim's
words: the hostname is one of the listed catalog domains, optionally
`www.`-prefixed, and the path contains a product segment. -/
def specValidTarget (u : Url) : Prop :=
  (∃ d ∈ validDomains, u.hostname = d ∨ u.hostname = "www." ++ d) ∧
  (strContains u.pathname "/dp/" = true ∨
    strContains u.pathname "/gp/product/" = true ∨
    strContains u.pathname "/product/" = true)

/-! ## Concrete instances used by counterexamples and witnesses -/

/-- A record with no derivable ASIN: the source label has no `ASIN:` marker
and there is no link (exactly the shape of a fallback or HTTP-tier
record). -/
def pNoAsin : Product :=
  { rank := .num 1, title := "Echo Dot (5th Gen)", price := "$49.99",
    rating := "4.7 out of 5 stars", image := none, link := none,
    source := "Fallback Data - Amazon Best Sellers", scrapedAt := 0 }

/-- A record whose source label carries an ASIN marker. -/
def pWithAsin : Product :=
  { rank := .num 1, title := "Some Gadget", price := "$19.99",
    rating := "4.9 out of 5 stars", image := none, link := none,
    source := "Amazon Product Detail - ASIN: B012345678", scrapedAt := 0 }

/-- A record whose price exceeds the 50-character column, so its INSERT
fails. -/
def pBadPrice : Product :=
  { rank := .num 1, title := "Widget With An Unstorable Price",
    price := "$999,999,999,999,999,999,999,999,999,999,999,999,999.99",
    rating := "5.0", image := none, link := none,
    source := "Amazon Best Sellers", scrapedAt := 0 }

/-- A row already committed before a failing batch arrives. -/
def preRow : DbRow :=
  { asin := some "B0PRE00000", rank := 1, title := "Pre-existing row",
    price := "$1.00", rating := "5.0", image_url := none, product_url := none,
    source := "Amazon Best Sellers", category := "electronics",
    scraped_at := 0, updated_at := 0 }

/-- A freshly scraped record as returned by a successful live scrape. -/
def pScraped : Product :=
  { rank := .num 1, title := "Freshly Scraped Gadget", price := "$9.99",
    rating := "5.0 out of 5 stars", image := none, link := none,
    source := "Amazon Best Sellers", scrapedAt := 0 }

/-- Two candidate elements with distinct ASINs but the same title, both in
one viewport. -/
def eDup1 : Elem :=
  { titleMatch := some "Duplicate Widget Deluxe", priceMatch := none,
    ratingMatch := none, img := none, linkHref := none,
    dataAsin := some "B000000001", rankBadge := none }

/-- Second element of the duplicate-title pair. -/
def eDup2 : Elem := { eDup1 with dataAsin := some "B000000002" }

/-- Scroll environment whose first round shows the duplicate-title pair and
whose later rounds show nothing new. -/
def dupViews : Nat → List Product := fun n =>
  if n = 0 then extractProductsEnhanced [eDup1, eDup2] 0 else []

/-- A candidate element with a perfectly valid title but no derivable
external identifier (no `data-asin` attribute and no link). -/
def eNoId : Elem :=
  { titleMatch := some "Perfectly Valid Product Title", priceMatch := none,
    ratingMatch := none, img := none, linkHref := none,
    dataAsin := none, rankBadge := none }

/-- Detail-page data with every selector unmatched. -/
def dEmpty : DetailData :=
  { title := "", price := "", rating := "", image := "", asin := "",
    availability := "", reviewCount := "", brand := "", features := [] }

/-- Detail-page data with a valid title and no ASIN anywhere. -/
def dNoAsin : DetailData :=
  { dEmpty with title := "Great Product With Long Title" }

/-- The claim's example URL: no recognized domain, no product segment. -/
def uExample : Url :=
  { href := "https://example.com/not-a-product", hostname := "example.com",
    pathname := "/not-a-product" }

/-- A valid catalog detail URL. -/
def uValid : Url :=
  { href := "https://www.amazon.com/dp/B012345678", hostname := "www.amazon.com",
    pathname := "/dp/B012345678" }

/-! ## C3: RetryOrchestrator -/

/-- C3: `retryOperation` with the configured policy (3 attempts, 2000 ms
base delay) invokes the operation at most 3 times; a success at attempt k
is returned immediately with no further attempts; after 3 consecutive
failures the last observed error is thrown; the delay slept before attempt
n+1 is 2000 * 2 ^ (n-1) ms (2000 ms then 4000 ms), with no delay before the
first attempt and none after the final one (the delay list always has one
entry fewer than the number of attempts made). -/
theorem retryOperation_spec {E A : Type} (op : Nat → Except E A) :
    (retryOperation op).2.1 ≤ 3 ∧
    (∀ v, op 1 = .ok v → retryOperation op = (.ok v, 1, [])) ∧
    (∀ e1 v, op 1 = .error e1 → op 2 = .ok v →
      retryOperation op = (.ok v, 2, [2000])) ∧
    (∀ e1 e2 v, op 1 = .error e1 → op 2 = .error e2 → op 3 = .ok v →
      retryOperation op = (.ok v, 3, [2000, 4000])) ∧
    (∀ e1 e2 e3, op 1 = .error e1 → op 2 = .error e2 → op 3 = .error e3 →
      retryOperation op = (.error e3, 3, [2000, 4000])) := by
  refine ⟨?_, ?_, ?_, ?_, ?_⟩
  · rcases h1 : op 1 with e1 | v1
    · rcases h2 : op 2 with e2 | v2
      · rcases h3 : op 3 with e3 | v3 <;>
          simp [retryOperation, retryGo, h1, h2, h3]
      · simp [retryOperation, retryGo, h1, h2]
    · simp [retryOperation, retryGo, h1]
  · intro v h1
    simp [retryOperation, retryGo, h1]
  · intro e1 v h1 h2
    simp [retryOperation, retryGo, h1, h2]
  · intro e1 e2 v h1 h2 h3
    simp [retryOperation, retryGo, h1, h2, h3]
  · intro e1 e2 e3 h1 h2 h3
    simp [retryOperation, retryGo, h1, h2, h3]

/-- C3 witness: an always-failing operation is invoked exactly 3 times, the
last error is rethrown, and the delays are 2000 ms then 4000 ms. -/
theorem retryOperation_spec_witness :
    retryOperation (fun _ => (Except.error 7 : Except Nat Nat)) =
      (.error 7, 3, [2000, 4000]) :=
  (retryOperation_spec (fun _ => (Except.error 7 : Except Nat Nat))).2.2.2.2
    7 7 7 rfl rfl rfl

/-! ## C10: static fallback slice -/

/-- C10 counterexample: the claim says a negative limit receives an empty
list (min (max limit 0) 5 = 0 records), but JS `slice(0, -1)` drops one
record from the end of the five-record set and returns four records. -/
theorem getFallbackProducts_negative_limit_cex :
    (getFallbackProducts (-1) 0).length = 4 ∧
    (getFallbackProducts (-1) 0).length ≠ (min (max (-1 : Int) 0) 5).toNat := by
  decide

/-- C10 (amended): `getFallbackProducts limit` is a prefix of the fixed
five-record sample set — exactly min(limit, 5) records for limit ≥ 0 (so a
limit above 5 silently receives 5, and limit 0 receives none) — while a
negative limit behaves as JS `slice(0, limit)` and returns the first
max(5 + limit, 0) records rather than none. -/
theorem getFallbackProducts_slice_spec (limit : Int) (now : Nat) :
    (0 ≤ limit →
      getFallbackProducts limit now = (fallbackProducts now).take limit.toNat ∧
      (getFallbackProducts limit now).length = min limit.toNat 5) ∧
    (limit < 0 →
      getFallbackProducts limit now = (fallbackProducts now).take (5 + limit).toNat ∧
      (getFallbackProducts limit now).length = (5 + limit).toNat) := by
  have hlen : (fallbackProducts now).length = 5 := rfl
  constructor
  · intro h
    have hnot : ¬ limit < 0 := by omega
    constructor
    · simp [getFallbackProducts, jsSliceTo, hnot]
    · simp [getFallbackProducts, jsSliceTo, hnot, List.length_take, hlen]
  · intro h
    constructor
    · simp only [getFallbackProducts, jsSliceTo, if_pos h, hlen]
      norm_num
    · simp only [getFallbackProducts, jsSliceTo, if_pos h, hlen, List.length_take]
      omega

/-- C10 witness: a request for 7 records receives the 5-record prefix. -/
theorem getFallbackProducts_slice_spec_witness :
    getFallbackProducts 7 0 = (fallbackProducts 0).take (7 : Int).toNat ∧
    (getFallbackProducts 7 0).length = min (7 : Int).toNat 5 :=
  (getFallbackProducts_slice_spec 7 0).1 (by decide)

/-! ## C1: fallback chain of getTrendingProducts -/

/-- With a positive limit the static fallback supplies at least one
record. -/
theorem getFallbackProducts_ne_nil {limit : Int} (now : Nat) (h : 1 ≤ limit) :
    getFallbackProducts limit now ≠ [] := by
  have hnot : ¬ limit < 0 := by omega
  simp only [getFallbackProducts, jsSliceTo, if_neg hnot]
  have hpos : 0 < ((fallbackProducts now).take limit.toNat).length := by
    rw [List.length_take]
    have h5 : (fallbackProducts now).length = 5 := rfl
    omega
  exact List.length_pos.mp hpos

/-- The HTTP tier throws instead of resolving with an empty list. -/
theorem scrapeWithHttpOnly_ok_ne_nil (fetch : Except ScrapeErr Unit)
    (pats : List (List String)) (limit : Int) (now : Nat) (ps : List Product)
    (h : scrapeWithHttpOnly fetch pats limit now = .ok ps) : ps ≠ [] := by
  cases fetch with
  | error e => simp [scrapeWithHttpOnly] at h
  | ok _ =>
    simp only [scrapeWithHttpOnly] at h
    by_cases hc : httpScanPatterns limit now pats = []
    · rw [if_pos hc] at h
      exact absurd h (by simp)
    · rw [if_neg hc] at h
      cases h
      exact hc

/-- C1 counterexample: a browser tier that navigates successfully but whose
in-page extraction accepts no candidate resolves with an empty list, and
`getTrendingProducts` returns that empty list for the valid request
limit = 1 — the fallback chain is not entered, because it only reacts to
thrown errors, not to an empty success. -/
theorem getTrendingProducts_empty_success_cex :
    getTrendingProducts 1 "electronics" false (.ok ()) (fun _ => []) (.ok ()) [] 0 =
      .ok [] := rfl

/-- C1 (amended): for every valid request (limit ≥ 1) `getTrendingProducts`
never throws — every tier's error is caught, and the tier-4 static set
always supplies at least one record — and the returned list is empty
exactly when the browser tier was consulted and resolved successfully with
zero records; whenever the browser tier throws (or is skipped), the result
is non-empty. -/
theorem getTrendingProducts_spec (limit : Int) (category : String)
    (skipBrowser : Bool) (nav : Except ScrapeErr Unit)
    (views : Nat → List Product) (fetch : Except ScrapeErr Unit)
    (pats : List (List String)) (now : Nat) (hlim : 1 ≤ limit) :
    ∃ ps, getTrendingProducts limit category skipBrowser nav views fetch pats now =
        .ok ps ∧
      (ps = [] ↔ (skipBrowser = false ∧
        scrapeTrendingProductsRun nav views limit category = .ok [])) := by
  cases skipBrowser with
  | true =>
    rcases hh : scrapeWithHttpOnly fetch pats limit now with e | qs
    · refine ⟨getFallbackProducts limit now, ?_, ?_⟩
      · simp [getTrendingProducts, hh]
      · constructor
        · intro hc
          exact absurd hc (getFallbackProducts_ne_nil now hlim)
        · rintro ⟨hfalse, -⟩
          cases hfalse
    · refine ⟨qs, ?_, ?_⟩
      · simp [getTrendingProducts, hh]
      · constructor
        · intro hc
          exact absurd hc (scrapeWithHttpOnly_ok_ne_nil fetch pats limit now qs hh)
        · rintro ⟨hfalse, -⟩
          cases hfalse
  | false =>
    rcases hb : scrapeTrendingProductsRun nav views limit category with e | bs
    · rcases hh : scrapeWithHttpOnly fetch pats limit now with e2 | qs
      · refine ⟨getFallbackProducts limit now, ?_, ?_⟩
        · simp [getTrendingProducts, hb, hh]
        · constructor
          · intro hc
            exact absurd hc (getFallbackProducts_ne_nil now hlim)
          · rintro ⟨-, hok⟩
            cases hok
      · refine ⟨qs, ?_, ?_⟩
        · simp [getTrendingProducts, hb, hh]
        · constructor
          · intro hc
            exact absurd hc (scrapeWithHttpOnly_ok_ne_nil fetch pats limit now qs hh)
          · rintro ⟨-, hok⟩
            cases hok
    · refine ⟨bs, ?_, ?_⟩
      · simp [getTrendingProducts, hb]
      · simp

/-- C1 witness: with the browser skipped and a failing HTTP fetch, a
request for 3 records resolves with a non-empty list (the static
fallback). -/
theorem getTrendingProducts_spec_witness :
    ∃ ps, getTrendingProducts 3 "electronics" true (.ok ()) (fun _ => [])
        (.error .navFailed) [] 0 = .ok ps ∧
      (ps = [] ↔ (true = false ∧
        scrapeTrendingProductsRun (.ok ()) (fun _ => []) 3 "electronics" =
          .ok [])) :=
  getTrendingProducts_spec 3 "electronics" true (.ok ()) (fun _ => [])
    (.error .navFailed) [] 0 (by decide)

/-! ## C2: ScrollPaginator -/

/-- The scroll loop performs at most `fuel` extraction rounds. -/
theorem enhancedLoop_rounds (views : Nat → List Product) (target : Int) :
    ∀ (fuel attempts : Nat) (all : List Product),
      (enhancedLoop views target fuel attempts all).2 ≤ fuel := by
  intro fuel
  induction fuel with
  | zero => intro a all; simp [enhancedLoop]
  | succ n ih =>
    intro a all
    simp only [enhancedLoop]
    split
    · split
      · simp
      · have h := ih (a + 1)
          (all ++ (views a).filter (fun p => !(all.any (fun e => e.title == p.title))))
        simp only []
        omega
    · simp

/-- Records accepted by the per-round filter carry titles absent from the
running set. -/
theorem mem_round_filter_title (all curr : List Product) (q : Product)
    (hq : q ∈ curr.filter (fun p => !(all.any (fun e => e.title == p.title)))) :
    ∀ e ∈ all, e.title ≠ q.title := by
  intro e he
  have hcond := (List.mem_filter.mp hq).2
  simp only [Bool.not_eq_true', List.any_eq_false, beq_iff_eq] at hcond
  exact hcond e he

/-- When every round's extraction is itself free of duplicate titles, the
accumulated list stays free of duplicate titles: new records are filtered
against the running set. -/
theorem enhancedLoop_titles_nodup (views : Nat → List Product) (target : Int)
    (hv : ∀ n, (views n).Pairwise (fun p q => p.title ≠ q.title)) :
    ∀ (fuel attempts : Nat) (all : List Product),
      all.Pairwise (fun p q => p.title ≠ q.title) →
      ((enhancedLoop views target fuel attempts all).1).Pairwise
        (fun p q => p.title ≠ q.title) := by
  intro fuel
  induction fuel with
  | zero => intro a all hall; simpa [enhancedLoop] using hall
  | succ n ih =>
    intro a all hall
    have hall' : (all ++ (views a).filter
        (fun p => !(all.any (fun e => e.title == p.title)))).Pairwise
        (fun p q => p.title ≠ q.title) := by
      rw [List.pairwise_append]
      refine ⟨hall, ?_, ?_⟩
      · exact List.Pairwise.sublist (List.filter_sublist _) (hv a)
      · intro p hp q hq
        exact mem_round_filter_title all (views a) q hq p hp
    simp only [enhancedLoop]
    split
    · split
      · exact hall'
      · exact ih (a + 1) _ hall'
    · exact hall

/-- C2 counterexample: one viewport containing two candidate elements with
distinct ASINs but the same title (a record shape the enhanced in-page
extractor produces verbatim) yields a returned list with two records of the
same title: the dedup filter compares new records only against the running
set, never within the current round. -/
theorem scrapeWithScrolling_duplicate_titles_cex :
    ((scrapeProductsWithScrolling dupViews 10).toOption.getD []).map Product.title =
      ["Duplicate Widget Deluxe", "Duplicate Widget Deluxe"] := by
  decide

/-- C2 (amended): the scroll loop performs at most 6 extraction rounds; a
round merges only records whose title is not already in the running set, so
the output is free of duplicate titles whenever each single round is (but
duplicates inside one round survive); when anything was accumulated the
function returns the accumulation truncated to min(targetCount, 50) in
discovery order — falling short of the target is not a failure — while an
empty accumulation throws. -/
theorem scrapeWithScrolling_spec (views : Nat → List Product) (limit : Int) :
    (enhancedLoop views (min limit 50) 6 0 []).2 ≤ 6 ∧
    ((∀ n, (views n).Pairwise (fun p q => p.title ≠ q.title)) →
      ((enhancedLoop views (min limit 50) 6 0 []).1).Pairwise
        (fun p q => p.title ≠ q.title)) ∧
    ((enhancedLoop views (min limit 50) 6 0 []).1 ≠ [] →
      scrapeProductsWithScrolling views limit =
        .ok (jsSliceTo (enhancedLoop views (min limit 50) 6 0 []).1 (min limit 50))) ∧
    ((enhancedLoop views (min limit 50) 6 0 []).1 = [] →
      scrapeProductsWithScrolling views limit = .error .noProducts) := by
  refine ⟨enhancedLoop_rounds views (min limit 50) 6 0 [],
    fun hv => enhancedLoop_titles_nodup views (min limit 50) hv 6 0 [] (by simp),
    fun h => ?_, fun h => ?_⟩
  · simp only [scrapeProductsWithScrolling]
    rw [if_neg h]
  · simp only [scrapeProductsWithScrolling]
    rw [if_pos h]

/-- C2 witness: with rounds that never show duplicate titles, the
accumulated output has no duplicate titles. -/
theorem scrapeWithScrolling_spec_witness :
    ((enhancedLoop (fun _ => ([] : List Product)) (min 5 50) 6 0 []).1).Pairwise
      (fun p q => p.title ≠ q.title) :=
  (scrapeWithScrolling_spec (fun _ => []) 5).2.1 (fun _ => List.Pairwise.nil)

/-! ## C4 and C5: upsert idempotence, the asin invariant, atomicity -/

/-- The conflict-update pass preserves, row by row, whether a row matches a
given asin, so filters by asin keep their length. -/
theorem filter_length_map_upsert (nr : NewRow) (now : Nat) (a a' : String)
    (t : List DbRow) :
    ((t.map (fun r => if r.asin = some a then overwriteRow r nr now else r)).filter
      (fun r => decide (r.asin = some a'))).length =
    (t.filter (fun r => decide (r.asin = some a'))).length := by
  induction t with
  | nil => simp
  | cons r t' ih =>
    by_cases hr : r.asin = some a
    · have hasin : (overwriteRow r nr now).asin = r.asin := rfl
      simp only [List.map_cons, if_pos hr, List.filter_cons, hasin]
      by_cases hr' : r.asin = some a' <;> simp [hr', ih]
    · simp only [List.map_cons, if_neg hr, List.filter_cons]
      by_cases hr' : r.asin = some a' <;> simp [hr', ih]

/-- No row of the table matches the asin when `any` says so. -/
theorem filter_nil_of_any_false (t : List DbRow) (a : String)
    (hany : ¬ t.any (fun r => decide (r.asin = some a)) = true) :
    t.filter (fun r => decide (r.asin = some a)) = [] := by
  rw [List.filter_eq_nil_iff]
  intro x hx hc
  exact hany (List.any_eq_true.mpr ⟨x, hx, hc⟩)

/-- Every row matching the upserted asin after the upsert is exactly the
freshly written row. -/
theorem upsertRow_mem_filter (t : List DbRow) (nr : NewRow) (now : Nat)
    (a : String) (ha : nr.asin = some a) :
    ∀ r' ∈ (upsertRow t nr now).filter (fun r => decide (r.asin = some a)),
      r' = insertRow nr now := by
  intro r' hr'
  obtain ⟨hmem1, hpred⟩ := List.mem_filter.mp hr'
  rw [decide_eq_true_eq] at hpred
  unfold upsertRow at hmem1
  rw [ha] at hmem1
  dsimp only at hmem1
  by_cases hany : t.any (fun r => decide (r.asin = some a)) = true
  · rw [if_pos hany] at hmem1
    obtain ⟨y, hy, hfy⟩ := List.mem_map.mp hmem1
    by_cases hya : y.asin = some a
    · rw [if_pos hya] at hfy
      rw [← hfy]
      simp [overwriteRow, insertRow, hya, ha]
    · rw [if_neg hya] at hfy
      rw [← hfy] at hpred
      exact absurd hpred hya
  · rw [if_neg hany] at hmem1
    rcases List.mem_append.mp hmem1 with hin | hin
    · exact absurd (List.any_eq_true.mpr ⟨r', hin, by simp [hpred]⟩) hany
    · simpa using hin

/-- On a table holding at most one row with the upserted asin, the upsert
leaves exactly one such row. -/
theorem upsertRow_filter_length (t : List DbRow) (nr : NewRow) (now : Nat)
    (a : String) (ha : nr.asin = some a)
    (hone : (t.filter (fun r => decide (r.asin = some a))).length ≤ 1) :
    ((upsertRow t nr now).filter (fun r => decide (r.asin = some a))).length = 1 := by
  unfold upsertRow
  rw [ha]
  dsimp only
  by_cases hany : t.any (fun r => decide (r.asin = some a)) = true
  · rw [if_pos hany, filter_length_map_upsert]
    obtain ⟨y, hy, hpy⟩ := List.any_eq_true.mp hany
    have hmem : y ∈ t.filter (fun r => decide (r.asin = some a)) :=
      List.mem_filter.mpr ⟨hy, hpy⟩
    have hpos := List.length_pos_of_mem hmem
    omega
  · rw [if_neg hany, List.filter_append, filter_nil_of_any_false t a hany]
    simp [insertRow, ha]

/-- Upsert of a non-NULL-asin payload rewrites the table so that the rows
matching that asin are exactly the freshly written row. -/
theorem upsertRow_filter_self (t : List DbRow) (nr : NewRow) (now : Nat)
    (a : String) (ha : nr.asin = some a)
    (hone : (t.filter (fun r => decide (r.asin = some a))).length ≤ 1) :
    (upsertRow t nr now).filter (fun r => decide (r.asin = some a)) =
      [insertRow nr now] := by
  obtain ⟨x, hx⟩ := List.length_eq_one.mp
    (upsertRow_filter_length t nr now a ha hone)
  rw [hx]
  have hxmem : x ∈ (upsertRow t nr now).filter (fun r => decide (r.asin = some a)) := by
    rw [hx]; exact List.mem_singleton_self x
  rw [upsertRow_mem_filter t nr now a ha x hxmem]

/-- Every single upsert preserves the schema invariant: at most one row per
non-null asin. -/
theorem upsertRow_asinUnique (t : List DbRow) (nr : NewRow) (now : Nat)
    (hinv : asinUnique t) : asinUnique (upsertRow t nr now) := by
  intro a'
  unfold upsertRow
  cases hna : nr.asin with
  | none =>
    dsimp only
    rw [List.filter_append]
    have hins : [insertRow nr now].filter (fun r => decide (r.asin = some a')) = [] := by
      simp [insertRow, hna]
    rw [hins]
    simpa using hinv a'
  | some a =>
    dsimp only
    by_cases hany : t.any (fun r => decide (r.asin = some a)) = true
    · rw [if_pos hany, filter_length_map_upsert]
      exact hinv a'
    · rw [if_neg hany, List.filter_append]
      by_cases haa : a' = a
      · subst haa
        rw [filter_nil_of_any_false t a' hany]
        simp [insertRow, hna]
      · have hins : [insertRow nr now].filter (fun r => decide (r.asin = some a')) = [] := by
          have hasin : (insertRow nr now).asin = some a := hna
          simp only [List.filter_cons, List.filter_nil, hasin, decide_eq_true_eq,
            Option.some.injEq]
          rw [if_neg (fun h => haa h.symm)]
        rw [hins]
        simpa using hinv a'

/-- A successful single-record save commits exactly one upsert. -/
theorem saveProducts_single_ok (p : Product) (category : String) (now : Nat)
    (s : DbState) (hok : rowOk (convertToDbProduct p category) = true) :
    saveProducts [p] category now s =
      (.ok 1, ⟨upsertRow s.committed (convertToDbProduct p category) now, none⟩) := by
  simp [saveProducts, saveLoop, hok, beginTxn, txnUpsert, commitTxn]

/-- Behavior of the per-row save loop inside an open transaction: an error
leaves the committed table untouched (ROLLBACK), a success commits the fold
of the upserts and reports one save per payload row. -/
theorem saveLoop_spec (now : Nat) :
    ∀ (rows : List NewRow) (c t : List DbRow) (saved : Nat),
      (∀ e, (saveLoop now rows ⟨c, some t⟩ saved).1 = .error e →
        (saveLoop now rows ⟨c, some t⟩ saved).2 = ⟨c, none⟩) ∧
      (∀ n, (saveLoop now rows ⟨c, some t⟩ saved).1 = .ok n →
        n = saved + rows.length ∧
        (saveLoop now rows ⟨c, some t⟩ saved).2 =
          ⟨rows.foldl (fun tb r => upsertRow tb r now) t, none⟩) := by
  intro rows
  induction rows with
  | nil =>
    intro c t saved
    constructor
    · intro e he
      simp [saveLoop, commitTxn] at he
    · intro n hn
      simp only [saveLoop, commitTxn] at hn ⊢
      cases hn
      simp
  | cons r rs ih =>
    intro c t saved
    by_cases hok : rowOk r = true
    · have hstep : saveLoop now (r :: rs) ⟨c, some t⟩ saved =
          saveLoop now rs ⟨c, some (upsertRow t r now)⟩ (saved + 1) := by
        simp [saveLoop, hok, txnUpsert]
      rw [hstep]
      constructor
      · intro e he
        exact (ih c (upsertRow t r now) (saved + 1)).1 e he
      · intro n hn
        obtain ⟨hn1, hn2⟩ := (ih c (upsertRow t r now) (saved + 1)).2 n hn
        refine ⟨by simp [hn1]; omega, ?_⟩
        rw [hn2]
        simp [List.foldl_cons]
    · have hstep : saveLoop now (r :: rs) ⟨c, some t⟩ saved =
          (.error "insert failed", rollbackTxn ⟨c, some t⟩) := by
        simp [saveLoop, hok]
      rw [hstep]
      constructor
      · intro e he
        simp [rollbackTxn]
      · intro n hn
        simp at hn

/-- C5: `saveProducts` is all-or-nothing — when any row of the batch fails,
the transaction is rolled back so the committed table is exactly what it
was before the call, and the error propagates to the caller; when every row
succeeds, the reported count is the batch size and the committed table is
the left fold of the per-record upserts. -/
theorem saveProducts_atomic (ps : List Product) (category : String) (now : Nat)
    (s : DbState) :
    (∀ e, (saveProducts ps category now s).1 = .error e →
      ((saveProducts ps category now s).2).committed = s.committed) ∧
    (∀ n, (saveProducts ps category now s).1 = .ok n →
      n = ps.length ∧
      ((saveProducts ps category now s).2).committed =
        (ps.map (fun p => convertToDbProduct p category)).foldl
          (fun tb r => upsertRow tb r now) s.committed) := by
  have hbegin : beginTxn s = ⟨s.committed, some s.committed⟩ := rfl
  have h := saveLoop_spec now (ps.map (fun p => convertToDbProduct p category))
    s.committed s.committed 0
  constructor
  · intro e he
    have := h.1 e (by simpa [saveProducts, hbegin] using he)
    simp only [saveProducts, hbegin]
    rw [this]
  · intro n hn
    obtain ⟨hn1, hn2⟩ := h.2 n (by simpa [saveProducts, hbegin] using hn)
    refine ⟨by simpa using hn1, ?_⟩
    simp only [saveProducts, hbegin]
    rw [hn2]

/-- C5 witness: a batch whose second record overflows the price column
rolls back, leaving the pre-existing committed row as the only content. -/
theorem saveProducts_atomic_witness :
    ((saveProducts [pWithAsin, pBadPrice] "electronics" 9 ⟨[preRow], none⟩).2).committed =
      [preRow] :=
  (saveProducts_atomic [pWithAsin, pBadPrice] "electronics" 9 ⟨[preRow], none⟩).1
    "insert failed" rfl

/-- C4 counterexample: a record with no derivable identifier (no ASIN
marker in its source label and no link — the exact shape of the static
fallback records, which the products route does save) maps to a NULL-asin
row; PostgreSQL UNIQUE ignores NULLs, so saving the identical record twice
leaves two rows for it, not one. -/
theorem saveProducts_null_asin_twice_cex :
    asinOf pNoAsin = none ∧
    ((saveProducts [pNoAsin] "electronics" 2
        (saveProducts [pNoAsin] "electronics" 1 ⟨[], none⟩).2).2).committed =
      [insertRow (convertToDbProduct pNoAsin "electronics") 1,
       insertRow (convertToDbProduct pNoAsin "electronics") 2] := by
  decide

/-- C4 (amended): for a record with a derivable (non-null) identifier,
`saveProducts` is idempotent — persisting the same record twice against any
table satisfying the asin invariant leaves exactly one row for that
identifier, carrying the later save's `updated_at` and the record's fields
— and the invariant (at most one row per non-null asin) holds again after
every upsert; records with no derivable identifier instead insert a fresh
NULL-asin row on every save. -/
theorem saveProducts_idempotent_nonnull (p : Product) (category : String)
    (s : DbState) (t1 t2 : Nat) (a : String)
    (ha : (convertToDbProduct p category).asin = some a)
    (hok : rowOk (convertToDbProduct p category) = true)
    (hinv : asinUnique s.committed) :
    ((saveProducts [p] category t2 (saveProducts [p] category t1 s).2).2).committed.filter
        (fun r => decide (r.asin = some a)) =
      [insertRow (convertToDbProduct p category) t2] ∧
    asinUnique
      ((saveProducts [p] category t2 (saveProducts [p] category t1 s).2).2).committed := by
  rw [saveProducts_single_ok p category t1 s hok]
  rw [saveProducts_single_ok p category t2 _ hok]
  have hinv1 : asinUnique (upsertRow s.committed (convertToDbProduct p category) t1) :=
    upsertRow_asinUnique s.committed (convertToDbProduct p category) t1 hinv
  constructor
  · exact upsertRow_filter_self _ (convertToDbProduct p category) t2 a ha (hinv1 a)
  · exact upsertRow_asinUnique _ (convertToDbProduct p category) t2 hinv1

/-- C4 witness: a record carrying ASIN B012345678 saved twice into an empty
store leaves exactly one row with that asin, stamped by the second save. -/
theorem saveProducts_idempotent_nonnull_witness :
    ((saveProducts [pWithAsin] "electronics" 2
        (saveProducts [pWithAsin] "electronics" 1 ⟨[], none⟩).2).2).committed.filter
        (fun r => decide (r.asin = some "B012345678")) =
      [insertRow (convertToDbProduct pWithAsin "electronics") 2] ∧
    asinUnique
      ((saveProducts [pWithAsin] "electronics" 2
        (saveProducts [pWithAsin] "electronics" 1 ⟨[], none⟩).2).2).committed :=
  saveProducts_idempotent_nonnull pWithAsin "electronics" ⟨[], none⟩ 1 2 "B012345678"
    (by decide) (by decide) (by intro a; simp [asinUnique])

/-! ## C6: persistence failure in the products route -/

/-- C6 counterexample: with an empty cache, a successful scrape of one
record followed by a failing save returns the static fallback records — the
freshly scraped record is discarded, not returned. -/
theorem productsEndpoint_discards_scraped_cex :
    (productsEndpoint 20 0 "electronics" [] false (.ok [pScraped])
        (.error "persist")).1 = getFallbackProducts 20 0 ∧
    pScraped ∉ (productsEndpoint 20 0 "electronics" [] false (.ok [pScraped])
        (.error "persist")).1 := by
  constructor
  · rfl
  · decide

/-- C6 (amended): when live extraction succeeds but the save fails, the
route's catch treats the persistence error exactly like a scraping error:
the caller receives the previously cached rows when any existed, else the
static fallback records — the freshly scraped (unpersisted) records are
discarded, never returned. -/
theorem productsEndpoint_save_failure (limit : Int) (now : Nat)
    (category : String) (dbProducts : List Product) (forceRefresh : Bool)
    (scraped : List Product) (e : String)
    (hmiss : dbProducts = [] ∨ forceRefresh = true)
    (hne : 0 < scraped.length) :
    productsEndpoint limit now category dbProducts forceRefresh (.ok scraped)
        (.error e) =
      (if dbProducts.length = 0 then
        (getFallbackProducts limit now,
          "Static Fallback Data - All other sources failed")
      else (dbProducts, "PostgreSQL Cache (Fallback) - Scraping failed")) := by
  have hnot : ¬ (0 < dbProducts.length ∧ forceRefresh = false) := by
    rcases hmiss with h | h
    · rintro ⟨h1, -⟩
      rw [h] at h1
      simp at h1
    · rintro ⟨-, h2⟩
      rw [h] at h2
      cases h2
  simp only [productsEndpoint, if_neg hnot]
  rw [if_pos hne]

/-- C6 witness: stale cached rows exist and a forced refresh scrapes
successfully but fails to save; the cached rows come back, not the scraped
ones. -/
theorem productsEndpoint_save_failure_witness :
    productsEndpoint 20 0 "electronics" [pNoAsin] true (.ok [pScraped])
        (.error "persist") =
      (if ([pNoAsin] : List Product).length = 0 then
        (getFallbackProducts 20 0,
          "Static Fallback Data - All other sources failed")
      else ([pNoAsin], "PostgreSQL Cache (Fallback) - Scraping failed")) :=
  productsEndpoint_save_failure 20 0 "electronics" [pNoAsin] true [pScraped]
    "persist" (Or.inr rfl) (by decide)

/-! ## C7: freshness check -/

/-- C7: `hasFreshData` reports fresh exactly when some row of the category
has age strictly below the window (a row exactly at the boundary does not
count), and a category with no rows yields (false, 0, none). -/
theorem hasFreshData_spec (table : List DbRow) (category : String)
    (maxAgeHours : Nat) (now : Int) :
    ((hasFreshData table category maxAgeHours now).1 = true ↔
      ∃ r ∈ table, r.category = category ∧
        now - (r.scraped_at : Int) < (maxAgeHours : Int) * 3600) ∧
    ((∀ r ∈ table, r.category ≠ category) →
      hasFreshData table category maxAgeHours now = (false, 0, none)) ∧
    (∀ r : DbRow, r.category = category →
      now - (r.scraped_at : Int) = (maxAgeHours : Int) * 3600 →
      (hasFreshData [r] category maxAgeHours now).1 = false) := by
  refine ⟨?_, ?_, ?_⟩
  · simp only [hasFreshData, decide_eq_true_eq]
    constructor
    · intro h
      have hne : freshRows table category maxAgeHours now ≠ [] := by
        intro hnil
        rw [hnil] at h
        simp at h
      obtain ⟨r, hr⟩ := List.exists_mem_of_ne_nil _ hne
      obtain ⟨hrt, hpred⟩ := List.mem_filter.mp hr
      rw [decide_eq_true_eq] at hpred
      exact ⟨r, hrt, hpred.1, by omega⟩
    · rintro ⟨r, hrt, hcat, hage⟩
      have hmem : r ∈ freshRows table category maxAgeHours now :=
        List.mem_filter.mpr ⟨hrt, by rw [decide_eq_true_eq]; exact ⟨hcat, by omega⟩⟩
      exact List.length_pos_of_mem hmem
  · intro h
    have hnil : freshRows table category maxAgeHours now = [] := by
      rw [freshRows, List.filter_eq_nil_iff]
      intro r hr hc
      rw [decide_eq_true_eq] at hc
      exact h r hr hc.1
    simp [hasFreshData, hnil, maxScraped]
  · intro r hcat hage
    have hnil : freshRows [r] category maxAgeHours now = [] := by
      rw [freshRows, List.filter_eq_nil_iff]
      intro x hx hc
      rw [decide_eq_true_eq] at hc
      have hxr : x = r := by simpa using hx
      subst hxr
      obtain ⟨-, h2⟩ := hc
      omega
    simp [hasFreshData, hnil]

/-- C7 witness: a category with no rows at all reports not fresh with a
zero count and no last-scraped timestamp. -/
theorem hasFreshData_spec_witness :
    hasFreshData [] "electronics" 24 0 = (false, 0, none) :=
  (hasFreshData_spec [] "electronics" 24 0).2.1
    (fun r hr => absurd hr (List.not_mem_nil r))

/-! ## C8: URL validation before detail extraction -/

/-- C8: a URL rejected by `isValidAmazonUrl` makes `scrapeProductDetails`
fail with the invalid-target error before any page is created (zero pages),
and `isValidAmazonUrl` accepts exactly the URLs whose hostname is a listed
catalog domain (optionally www.-prefixed) and whose path contains a product
segment. -/
theorem scrapeProductDetails_url_guard (u : Url)
    (env : Except ScrapeErr DetailData) (now : Nat) :
    (isValidAmazonUrl u = false →
      scrapeProductDetails u env now = (.error .invalidUrl, 0)) ∧
    (isValidAmazonUrl u = true ↔ specValidTarget u) := by
  constructor
  · intro h
    simp [scrapeProductDetails, h]
  · simp only [isValidAmazonUrl, specValidTarget, Bool.and_eq_true, Bool.or_eq_true,
      List.any_eq_true, beq_iff_eq]
    rw [or_assoc]

/-- C8 witness: the claim's example URL (unrecognized host, no product
segment) is rejected with the invalid-target error and zero pages
created. -/
theorem scrapeProductDetails_url_guard_witness :
    scrapeProductDetails uExample (.ok dEmpty) 0 = (.error .invalidUrl, 0) :=
  (scrapeProductDetails_url_guard uExample (.ok dEmpty) 0).1 (by decide)

/-! ## C9: extraction validation -/

/-- Records accepted by the primary list extractor have titles of length at
least 5 and a non-empty derived ASIN. -/
theorem extractProductsListGo_mem (now : Nat) :
    ∀ (es : List Elem) (i : Nat) (p : Product), p ∈ extractProductsListGo now es i →
      5 ≤ p.title.length ∧ ∃ a, p.asin = some a ∧ a ≠ "" := by
  intro es
  induction es with
  | nil =>
    intro i p hp
    simp [extractProductsListGo] at hp
  | cons e es' ih =>
    intro i p hp
    simp only [extractProductsListGo] at hp
    by_cases h1 : (e.titleMatch.getD "" = "" ∨ (e.titleMatch.getD "").length < 5)
    · rw [if_pos h1] at hp
      exact ih (i + 1) p hp
    · rw [if_neg h1] at hp
      by_cases h2 : elemAsinList e = ""
      · rw [if_pos h2] at hp
        exact ih (i + 1) p hp
      · rw [if_neg h2] at hp
        rcases List.mem_cons.mp hp with rfl | hp'
        · push_neg at h1
          refine ⟨?_, elemAsinList e, rfl, h2⟩
          show 5 ≤ (e.titleMatch.getD "").length
          omega
        · exact ih (i + 1) p hp'

/-- Records accepted by the enhanced list extractor have titles of length
at least 5. -/
theorem extractProductsEnhancedGo_mem (now : Nat) :
    ∀ (es : List Elem) (i : Nat) (p : Product),
      p ∈ extractProductsEnhancedGo now es i → 5 ≤ p.title.length := by
  intro es
  induction es with
  | nil =>
    intro i p hp
    simp [extractProductsEnhancedGo] at hp
  | cons e es' ih =>
    intro i p hp
    simp only [extractProductsEnhancedGo] at hp
    by_cases h1 : (e.titleMatch.getD "" = "" ∨ (e.titleMatch.getD "").length < 5)
    · rw [if_pos h1] at hp
      exact ih (i + 1) p hp
    · rw [if_neg h1] at hp
      rcases List.mem_cons.mp hp with rfl | hp'
      · push_neg at h1
        show 5 ≤ (e.titleMatch.getD "").length
        omega
      · exact ih (i + 1) p hp'

/-- C9 counterexample: a candidate with a valid title but no derivable
identifier (no data-asin attribute and no link) is dropped by the primary
list extractor, yet the enhanced list extractor accepts it (embedding an
empty ASIN into the provenance label) — so list-mode extraction does not
always drop identifier-less candidates. -/
theorem enhanced_keeps_missing_id_cex :
    elemAsinList eNoId = "" ∧
    extractProductsList [eNoId] 0 = [] ∧
    (extractProductsEnhanced [eNoId] 0).length = 1 := by
  decide

/-- C9 (amended): every record accepted by either list extractor has a
title of at least 5 characters; the primary list extractor
(`scrapeTrendingProducts`) additionally drops every candidate with no
derivable identifier, so each of its records carries a non-empty ASIN,
while the enhanced extractor keeps such candidates; detail-mode extraction
tolerates a missing identifier, returning the record with a null ASIN. -/
theorem extraction_validation_spec (elems : List Elem) (now : Nat) :
    (∀ p ∈ extractProductsList elems now,
      5 ≤ p.title.length ∧ ∃ a, p.asin = some a ∧ a ≠ "") ∧
    (∀ p ∈ extractProductsEnhanced elems now, 5 ≤ p.title.length) ∧
    (∀ (u : Url) (d : DetailData) (m : Nat), isValidAmazonUrl u = true →
      d.asin = "" → 5 ≤ d.title.length →
      (scrapeProductDetails u (.ok d) m).1 = .ok (mkDetailProduct u d m) ∧
      (mkDetailProduct u d m).asin = none) := by
  refine ⟨fun p hp => extractProductsListGo_mem now elems 0 p hp,
    fun p hp => extractProductsEnhancedGo_mem now elems 0 p hp, ?_⟩
  intro u d m hu hasin htitle
  have hcheck : ¬ (d.title = "" ∨ d.title.length < 5) := by
    rintro (h | h)
    · rw [h] at htitle
      simp at htitle
    · omega
  constructor
  · simp [scrapeProductDetails, hu, hcheck]
  · simp [mkDetailProduct, hasin]

/-- C9 witness: a detail page with a valid title and no ASIN anywhere still
yields a record, with a null identifier. -/
theorem extraction_validation_spec_witness :
    (scrapeProductDetails uValid (.ok dNoAsin) 0).1 =
      .ok (mkDetailProduct uValid dNoAsin 0) ∧
    (mkDetailProduct uValid dNoAsin 0).asin = none :=
  (extraction_validation_spec [] 0).2.2 uValid dNoAsin 0 (by decide) rfl (by decide)

end Web3fyGo
